import Mathlib

/-!
Verification development for the two-alternative forced-choice bar trial
plugins (`bar-choice` in `src/jsPsych/assignment-inferenceAC.js` and
`bar-image-choice` in `src/unnamed/part_000`).

The trial body is embedded as an explicit state machine over a list of
external events (key presses filtered by the registered keyboard listener,
and timer firings).  Randomness supplied by the host runtime
(`randomization.randomInt` and `Math.random`) is modelled as an oracle of
pre-drawn values.  JavaScript `null` becomes `Option.none`; the jitter
computation `Math.round((Math.random() * 2 - 1) * trial.jitter)` is modelled
over ℚ with JavaScript round-half-up semantics.
-/

/-- The `choices` parameter: either the disable sentinel string `"NO_KEYS"`
or an array of key tokens. -/
inductive Choices where
  | noKeys : Choices
  | keys : List String → Choices
deriving DecidableEq

/-- The trial parameter object of the plain-bar plugin (`bar-choice`),
restricted to the fields the trial body reads.  `left_height_range` and
`right_height_range` are read only at indices 0 and 1, so they are modelled
as pairs. -/
structure TrialCfg where
  prompt : Option String
  left_height_range : Int × Int
  right_height_range : Int × Int
  jitter : Int
  left_color : String
  right_color : String
  bg_color : String
  choices : Choices
  correct_side : Option String
  trial_duration : Option Nat
  response_ends_trial : Bool
deriving DecidableEq

/-- Pre-drawn random values: the two `randomInt` results and the two
`Math.random()` results (each in `[0, 1)`). -/
structure Oracle where
  left_height : Int
  right_height : Int
  left_r : ℚ
  right_r : ℚ
deriving DecidableEq

/-- JavaScript `Math.round`: round half toward positive infinity. -/
def jsRound (q : ℚ) : ℤ := ⌊q + 1/2⌋

/-- `Math.round((Math.random() * 2 - 1) * trial.jitter)` with
`r = Math.random()`. -/
def sampleJitter (r : ℚ) (J : ℤ) : ℤ := jsRound ((r * 2 - 1) * (J : ℚ))

/-- The per-trial constants computed at the top of `trial()`:
`left_jitter`, `right_jitter`, `final_left = left_height + left_jitter`,
`final_right = right_height + right_jitter`. -/
structure TrialEnv where
  cfg : TrialCfg
  left_jitter : Int
  right_jitter : Int
  final_left : Int
  final_right : Int
deriving DecidableEq

/-- The stimulus-sampling prefix of `BarChoicePlugin.trial`. -/
def setupTrial (cfg : TrialCfg) (o : Oracle) : TrialEnv :=
  let left_jitter := sampleJitter o.left_r cfg.jitter
  let right_jitter := sampleJitter o.right_r cfg.jitter
  { cfg := cfg
    left_jitter := left_jitter
    right_jitter := right_jitter
    final_left := o.left_height + left_jitter
    final_right := o.right_height + right_jitter }

/-- The `trial_data` record passed to `finishTrial` by the plain-bar
plugin. -/
structure TrialData where
  rt : Option Nat
  key : Option String
  prompt : Option String
  chosen_side : Option String
  correct_side : Option String
  accuracy : Option Int
  final_left : Int
  final_right : Int
  left_color : String
  right_color : String
  left_jitter : Int
  right_jitter : Int
deriving DecidableEq

/-- Mutable trial-session state: the `response` slot, whether the keyboard
listener variable was ever defined (`typeof keyboardListener !== "undefined"`),
whether the listener is still live, whether the trial-duration timeout is
still pending, and the list of records passed to `finishTrial` so far. -/
structure TrialState where
  response_rt : Option Nat
  response_key : Option String
  listenerRegistered : Bool
  listenerActive : Bool
  timerActive : Bool
  results : List TrialData
deriving DecidableEq

/-- External events delivered by the host runtime event loop. -/
inductive Event where
  | keyPress (key : String) (rt : Nat)
  | timerFire
deriving DecidableEq

/-- `trial.choices != "NO_KEYS"`: whether a keyboard listener is
registered. -/
def choicesEnabled : Choices → Bool
  | .noKeys => false
  | .keys _ => true

/-- Whether a pressed key is among `valid_responses: trial.choices`
(`getKeyboardResponse` only invokes the callback for these). -/
def validKey : Choices → String → Bool
  | .noKeys, _ => false
  | .keys cs, k => cs.contains k

/-- `trial.choices[i]`.  On the sentinel, JavaScript indexes into the string
`"NO_KEYS"`, yielding its characters; this branch is unreachable in
`end_trial`'s side mapping because no listener runs when choices are
disabled. -/
def choiceAt : Choices → Nat → Option String
  | .noKeys, 0 => some "N"
  | .noKeys, 1 => some "O"
  | .noKeys, _ => none
  | .keys cs, i => cs[i]?

/-- The key-to-side mapping of `end_trial` (textually identical in both
plugins): `chosen_side` stays `null` for a `null` key, is `"left"` when the
key equals `trial.choices[0]`, `"right"` when it equals `trial.choices[1]`,
and `null` otherwise. -/
def sideOfKey (c : Choices) : Option String → Option String
  | none => none
  | some k =>
    if choiceAt c 0 = some k then some "left"
    else if choiceAt c 1 = some k then some "right"
    else none

/-- The accuracy computation of `end_trial` (textually identical in both
plugins): `null` unless both `trial.correct_side` and `chosen_side` are
non-null, else 1 when they coincide and 0 otherwise. -/
def accuracyOf (correct chosen : Option String) : Option Int :=
  match correct, chosen with
  | some c, some s => some (if s = c then 1 else 0)
  | _, _ => none

/-- The record assembled inside `end_trial`: key-to-side mapping, accuracy,
and the `trial_data` object (the duplicated `prompt:` entry in the object
literal assigns the same value twice and is modelled once). -/
def end_trial_data (env : TrialEnv) (rt : Option Nat) (key : Option String) :
    TrialData :=
  let chosen_side : Option String := sideOfKey env.cfg.choices key
  let accuracy : Option Int := accuracyOf env.cfg.correct_side chosen_side
  { rt := rt
    key := key
    prompt := env.cfg.prompt
    chosen_side := chosen_side
    correct_side := env.cfg.correct_side
    accuracy := accuracy
    final_left := env.final_left
    final_right := env.final_right
    left_color := env.cfg.left_color
    right_color := env.cfg.right_color
    left_jitter := env.left_jitter
    right_jitter := env.right_jitter }

/-- `end_trial`: clear all timeouts, cancel the keyboard response if the
listener variable was defined, assemble `trial_data`, call `finishTrial`. -/
def end_trial (env : TrialEnv) (s : TrialState) : TrialState :=
  { s with
    timerActive := false
    listenerActive := if s.listenerRegistered then false else s.listenerActive
    results := s.results ++ [end_trial_data env s.response_rt s.response_key] }

/-- `after_response`: record the response if none was recorded yet, then end
the trial when `response_ends_trial` is set. -/
def after_response (env : TrialEnv) (k : String) (rt : Nat) (s : TrialState) :
    TrialState :=
  let s' :=
    if s.response_key = none then
      { s with response_rt := some rt, response_key := some k }
    else s
  if env.cfg.response_ends_trial then end_trial env s' else s'

/-- One event-loop step.  A key press reaches `after_response` only while
the listener is live and the key is a valid response; `persist: false`
removes the listener upon its first firing.  A timer firing consumes the
pending timeout and runs `end_trial`. -/
def step (env : TrialEnv) (s : TrialState) : Event → TrialState
  | .keyPress k rt =>
    if s.listenerActive && validKey env.cfg.choices k then
      after_response env k rt { s with listenerActive := false }
    else s
  | .timerFire =>
    if s.timerActive then end_trial env { s with timerActive := false }
    else s

/-- Process a list of events in order. -/
def run (env : TrialEnv) (s : TrialState) : List Event → TrialState
  | [] => s
  | e :: es => run env (step env s e) es

/-- State right after `trial()` returns: no response recorded, listener
registered iff choices are enabled, timeout pending iff `trial_duration`
is non-null, no result reported. -/
def initState (cfg : TrialCfg) : TrialState :=
  { response_rt := none
    response_key := none
    listenerRegistered := choicesEnabled cfg.choices
    listenerActive := choicesEnabled cfg.choices
    timerActive := cfg.trial_duration.isSome
    results := [] }

/-- Full trial: sample the stimulus, then process the external events. -/
def runTrial (cfg : TrialCfg) (o : Oracle) (events : List Event) : TrialState :=
  run (setupTrial cfg o) (initState cfg) events

/-- The trial parameter object of the image-overlay plugin
(`bar-image-choice`), restricted to the fields its trial body reads. -/
structure ImgTrialCfg where
  prompt : Option String
  left_image : Option String
  right_image : Option String
  left_height_range : Int × Int
  right_height_range : Int × Int
  jitter : Int
  bg_color : String
  choices : Choices
  correct_side : Option String
  trial_duration : Option Nat
  response_ends_trial : Bool
deriving DecidableEq

/-- The `trial_data` record passed to `finishTrial` by the image-overlay
plugin. -/
structure ImgTrialData where
  rt : Option Nat
  key : Option String
  prompt : Option String
  chosen_side : Option String
  correct_side : Option String
  accuracy : Option Int
  final_left : Int
  final_right : Int
  left_image : Option String
  right_image : Option String
  left_jitter : Int
  right_jitter : Int
deriving DecidableEq

/-- Per-trial constants of `BarImageChoicePlugin.trial`. -/
structure ImgTrialEnv where
  cfg : ImgTrialCfg
  left_jitter : Int
  right_jitter : Int
  final_left : Int
  final_right : Int
deriving DecidableEq

/-- The stimulus-sampling prefix of `BarImageChoicePlugin.trial`. -/
def imgSetupTrial (cfg : ImgTrialCfg) (o : Oracle) : ImgTrialEnv :=
  let left_jitter := sampleJitter o.left_r cfg.jitter
  let right_jitter := sampleJitter o.right_r cfg.jitter
  { cfg := cfg
    left_jitter := left_jitter
    right_jitter := right_jitter
    final_left := o.left_height + left_jitter
    final_right := o.right_height + right_jitter }

/-- Mutable session state of the image-overlay variant. -/
structure ImgTrialState where
  response_rt : Option Nat
  response_key : Option String
  listenerRegistered : Bool
  listenerActive : Bool
  timerActive : Bool
  results : List ImgTrialData
deriving DecidableEq

/-- The record assembled inside the image-overlay variant's `end_trial`. -/
def img_end_trial_data (env : ImgTrialEnv) (rt : Option Nat)
    (key : Option String) : ImgTrialData :=
  let chosen_side : Option String := sideOfKey env.cfg.choices key
  let accuracy : Option Int := accuracyOf env.cfg.correct_side chosen_side
  { rt := rt
    key := key
    prompt := env.cfg.prompt
    chosen_side := chosen_side
    correct_side := env.cfg.correct_side
    accuracy := accuracy
    final_left := env.final_left
    final_right := env.final_right
    left_image := env.cfg.left_image
    right_image := env.cfg.right_image
    left_jitter := env.left_jitter
    right_jitter := env.right_jitter }

/-- The image-overlay variant's `end_trial`. -/
def img_end_trial (env : ImgTrialEnv) (s : ImgTrialState) : ImgTrialState :=
  { s with
    timerActive := false
    listenerActive := if s.listenerRegistered then false else s.listenerActive
    results :=
      s.results ++ [img_end_trial_data env s.response_rt s.response_key] }

/-- The image-overlay variant's `after_response`. -/
def img_after_response (env : ImgTrialEnv) (k : String) (rt : Nat)
    (s : ImgTrialState) : ImgTrialState :=
  let s' :=
    if s.response_key = none then
      { s with response_rt := some rt, response_key := some k }
    else s
  if env.cfg.response_ends_trial then img_end_trial env s' else s'

/-- One event-loop step of the image-overlay variant. -/
def imgStep (env : ImgTrialEnv) (s : ImgTrialState) : Event → ImgTrialState
  | .keyPress k rt =>
    if s.listenerActive && validKey env.cfg.choices k then
      img_after_response env k rt { s with listenerActive := false }
    else s
  | .timerFire =>
    if s.timerActive then img_end_trial env { s with timerActive := false }
    else s

/-- Process a list of events in order (image-overlay variant). -/
def imgRun (env : ImgTrialEnv) (s : ImgTrialState) : List Event → ImgTrialState
  | [] => s
  | e :: es => imgRun env (imgStep env s e) es

/-- State right after `BarImageChoicePlugin.trial()` returns. -/
def imgInitState (cfg : ImgTrialCfg) : ImgTrialState :=
  { response_rt := none
    response_key := none
    listenerRegistered := choicesEnabled cfg.choices
    listenerActive := choicesEnabled cfg.choices
    timerActive := cfg.trial_duration.isSome
    results := [] }

/-- Full trial of the image-overlay variant. -/
def imgRunTrial (cfg : ImgTrialCfg) (o : Oracle) (events : List Event) :
    ImgTrialState :=
  imgRun (imgSetupTrial cfg o) (imgInitState cfg) events

/-! ### Invariant predicates and concrete instances -/

/-- A live keyboard listener implies the listener variable was defined.
Holds initially and is preserved by every step. -/
def WFState (s : TrialState) : Prop :=
  s.listenerActive = true → s.listenerRegistered = true

/-- Once a result has been reported, the listener and the timer are dead and
exactly one result exists. -/
def TrialInv (s : TrialState) : Prop :=
  WFState s ∧
    (s.results ≠ [] →
      s.listenerActive = false ∧ s.timerActive = false ∧ s.results.length = 1)

/-- Either the trial-duration timeout is still pending, or exactly one
result has been reported. -/
def TimerOrDone (s : TrialState) : Prop :=
  s.timerActive = true ∨ s.results.length = 1

/-- Either the keyboard listener is still live, or exactly one result has
been reported (invariant of configurations with `response_ends_trial`). -/
def ListenerOrDone (s : TrialState) : Prop :=
  s.listenerActive = true ∨ s.results.length = 1

/-- The response that the `response` slot holds after a list of events when
`response_ends_trial` is false: the first key press accepted by the listener
(`none, none` when there is none). -/
def firstResponse (c : Choices) : List Event → Option Nat × Option String
  | [] => (none, none)
  | Event.keyPress k rt :: es =>
    if validKey c k then (some rt, some k) else firstResponse c es
  | Event.timerFire :: es => firstResponse c es

/-- The fields of a result record produced by the trial engine itself, as
opposed to the echoed rendering parameters (colors / images). -/
structure EngineRecord where
  rt : Option Nat
  key : Option String
  prompt : Option String
  chosen_side : Option String
  correct_side : Option String
  accuracy : Option Int
  final_left : Int
  final_right : Int
  left_jitter : Int
  right_jitter : Int
deriving DecidableEq

/-- Engine fields of a plain-bar result record. -/
def TrialData.engine (d : TrialData) : EngineRecord :=
  { rt := d.rt
    key := d.key
    prompt := d.prompt
    chosen_side := d.chosen_side
    correct_side := d.correct_side
    accuracy := d.accuracy
    final_left := d.final_left
    final_right := d.final_right
    left_jitter := d.left_jitter
    right_jitter := d.right_jitter }

/-- Engine fields of an image-overlay result record. -/
def ImgTrialData.engine (d : ImgTrialData) : EngineRecord :=
  { rt := d.rt
    key := d.key
    prompt := d.prompt
    chosen_side := d.chosen_side
    correct_side := d.correct_side
    accuracy := d.accuracy
    final_left := d.final_left
    final_right := d.final_right
    left_jitter := d.left_jitter
    right_jitter := d.right_jitter }

/-- The two variants' configurations agree on every field the trial engine
reads (they differ only in rendering parameters). -/
def CfgAgrees (cfg : TrialCfg) (icfg : ImgTrialCfg) : Prop :=
  cfg.prompt = icfg.prompt ∧
  cfg.left_height_range = icfg.left_height_range ∧
  cfg.right_height_range = icfg.right_height_range ∧
  cfg.jitter = icfg.jitter ∧
  cfg.choices = icfg.choices ∧
  cfg.correct_side = icfg.correct_side ∧
  cfg.trial_duration = icfg.trial_duration ∧
  cfg.response_ends_trial = icfg.response_ends_trial

/-- The two variants' trial environments agree on every field the engine
consults or emits. -/
def EnvAgrees (env : TrialEnv) (ienv : ImgTrialEnv) : Prop :=
  env.cfg.prompt = ienv.cfg.prompt ∧
  env.cfg.choices = ienv.cfg.choices ∧
  env.cfg.correct_side = ienv.cfg.correct_side ∧
  env.cfg.response_ends_trial = ienv.cfg.response_ends_trial ∧
  env.left_jitter = ienv.left_jitter ∧
  env.right_jitter = ienv.right_jitter ∧
  env.final_left = ienv.final_left ∧
  env.final_right = ienv.final_right

/-- Correspondence between the two variants' session states: equal control
state and response slot, and result lists equal on engine fields. -/
def StateAgrees (s : TrialState) (t : ImgTrialState) : Prop :=
  s.response_rt = t.response_rt ∧
  s.response_key = t.response_key ∧
  s.listenerRegistered = t.listenerRegistered ∧
  s.listenerActive = t.listenerActive ∧
  s.timerActive = t.timerActive ∧
  s.results.map TrialData.engine = t.results.map ImgTrialData.engine

/-- A standard well-formed configuration used to instantiate the theorems
below on concrete inputs. -/
def stdCfg : TrialCfg :=
  { prompt := some "warm"
    left_height_range := (50, 150)
    right_height_range := (50, 150)
    jitter := 0
    left_color := "#3498db"
    right_color := "#e74c3c"
    bg_color := "#ffffff"
    choices := .keys ["f", "j"]
    correct_side := some "left"
    trial_duration := some 2000
    response_ends_trial := true }

/-- A concrete oracle draw. -/
def stdOracle : Oracle :=
  { left_height := 100, right_height := 120, left_r := 0, right_r := 0 }

/-- A configuration with duplicated choice tokens (`choices = ["f", "f"]`). -/
def dupCfg : TrialCfg :=
  { stdCfg with choices := .keys ["f", "f"] }

/-- A configuration violating every validity condition at once: inverted
left range, negative jitter, and a single-token `choices` array. -/
def invalidCfg : TrialCfg :=
  { prompt := some "warm"
    left_height_range := (150, 50)
    right_height_range := (50, 150)
    jitter := -5
    left_color := "#3498db"
    right_color := "#e74c3c"
    bg_color := "#ffffff"
    choices := .keys ["f"]
    correct_side := some "left"
    trial_duration := some 1000
    response_ends_trial := true }

/-- Disable-sentinel choices without a trial duration: the trial has no
mechanism to end. -/
def hangCfg : TrialCfg :=
  { stdCfg with choices := .noKeys, trial_duration := none }

/-- Disable-sentinel choices with a trial duration. -/
def noKeysCfg : TrialCfg :=
  { stdCfg with choices := .noKeys, trial_duration := some 2000 }

/-- A configuration with `response_ends_trial` false and a duration. -/
def holdCfg : TrialCfg :=
  { stdCfg with response_ends_trial := false }

/-- The image-overlay configuration agreeing with `stdCfg` on all engine
fields. -/
def stdImgCfg : ImgTrialCfg :=
  { prompt := some "warm"
    left_image := some "imgs/left.png"
    right_image := some "imgs/right.png"
    left_height_range := (50, 150)
    right_height_range := (50, 150)
    jitter := 0
    bg_color := "#ffffff"
    choices := .keys ["f", "j"]
    correct_side := some "left"
    trial_duration := some 2000
    response_ends_trial := true }

/-! ### Basic run lemmas (plain-bar variant) -/

theorem run_nil (env : TrialEnv) (s : TrialState) : run env s [] = s := rfl

theorem run_cons (env : TrialEnv) (s : TrialState) (e : Event) (es : List Event) :
    run env s (e :: es) = run env (step env s e) es := rfl

theorem run_append (env : TrialEnv) (s : TrialState) (es fs : List Event) :
    run env s (es ++ fs) = run env (run env s es) fs := by
  induction es generalizing s with
  | nil => rfl
  | cons e es ih => simp [run, ih]

theorem end_trial_timerActive (env : TrialEnv) (s : TrialState) :
    (end_trial env s).timerActive = false := rfl

theorem end_trial_listenerActive (env : TrialEnv) (s : TrialState)
    (h : WFState s) : (end_trial env s).listenerActive = false := by
  unfold end_trial
  by_cases hr : s.listenerRegistered = true
  · simp [hr]
  · simp only [WFState] at h
    cases hl : s.listenerActive with
    | false => simp [hl]
    | true => exact absurd (h hl) hr

theorem end_trial_results (env : TrialEnv) (s : TrialState) :
    (end_trial env s).results =
      s.results ++ [end_trial_data env s.response_rt s.response_key] := rfl

theorem after_response_of_ends (env : TrialEnv) (k : String) (rt : Nat)
    (s : TrialState) (h : env.cfg.response_ends_trial = true) :
    after_response env k rt s =
      end_trial env
        (if s.response_key = none then
          { s with response_rt := some rt, response_key := some k }
        else s) := by
  unfold after_response
  by_cases hk : s.response_key = none <;> simp [hk, h]

theorem after_response_of_not_ends (env : TrialEnv) (k : String) (rt : Nat)
    (s : TrialState) (h : env.cfg.response_ends_trial = false) :
    after_response env k rt s =
      (if s.response_key = none then
        { s with response_rt := some rt, response_key := some k }
      else s) := by
  unfold after_response
  by_cases hk : s.response_key = none <;> simp [hk, h]

theorem step_inv (env : TrialEnv) (s : TrialState) (e : Event)
    (h : TrialInv s) : TrialInv (step env s e) := by
  obtain ⟨hwf, hres⟩ := h
  cases e with
  | keyPress k rt =>
    by_cases hc : (s.listenerActive && validKey env.cfg.choices k) = true
    · have hla : s.listenerActive = true := (Bool.and_eq_true _ _ |>.mp hc).1
      have hre : s.results = [] := by
        by_contra hne
        have h2 := (hres hne).1
        rw [hla] at h2
        exact absurd h2 (by simp)
      by_cases he : env.cfg.response_ends_trial = true <;>
        by_cases hk : s.response_key = none <;>
        by_cases hr : s.listenerRegistered = true <;>
          simp_all [step, after_response, end_trial, TrialInv, WFState]
    · simpa [step, hc] using ⟨hwf, hres⟩
  | timerFire =>
    by_cases ht : s.timerActive = true
    · have hre : s.results = [] := by
        by_contra hne
        have h2 := (hres hne).2.1
        rw [ht] at h2
        exact absurd h2 (by simp)
      have hla : s.listenerActive = true → s.listenerRegistered = true := hwf
      by_cases hr : s.listenerRegistered = true
      · simp_all [step, end_trial, TrialInv, WFState]
      · have hlf : s.listenerActive = false := by
          cases hx : s.listenerActive with
          | false => rfl
          | true => exact absurd (hla hx) hr
        simp_all [step, end_trial, TrialInv, WFState]
    · simpa [step, ht] using ⟨hwf, hres⟩

theorem run_inv (env : TrialEnv) (s : TrialState) (es : List Event)
    (h : TrialInv s) : TrialInv (run env s es) := by
  induction es generalizing s with
  | nil => exact h
  | cons e es ih => exact ih _ (step_inv env s e h)

theorem initState_inv (cfg : TrialCfg) : TrialInv (initState cfg) := by
  refine ⟨?_, ?_⟩
  · intro h
    simpa [initState] using h
  · intro h
    exact absurd rfl h

/-- A dead state (listener and timer both inactive) is frozen: every further
event is a no-op. -/
theorem run_frozen (env : TrialEnv) (s : TrialState) (es : List Event)
    (hl : s.listenerActive = false) (ht : s.timerActive = false) :
    run env s es = s := by
  induction es with
  | nil => rfl
  | cons e es ih =>
    have hstep : step env s e = s := by
      cases e with
      | keyPress k rt => simp [step, hl]
      | timerFire => simp [step, ht]
    rw [run_cons, hstep, ih]

/-! ### Single-resolution lemmas, leading to the per-trial uniqueness of
`finishTrial` -/

theorem run_timerOrDone (env : TrialEnv) (s : TrialState) (es : List Event)
    (hinv : TrialInv s) (h : TimerOrDone s) : TimerOrDone (run env s es) := by
  induction es generalizing s with
  | nil => exact h
  | cons e es ih =>
    refine ih _ (step_inv env s e hinv) ?_
    obtain ⟨hwf, hres⟩ := hinv
    cases e with
    | keyPress k rt =>
      by_cases hc : (s.listenerActive && validKey env.cfg.choices k) = true
      · have hla : s.listenerActive = true := (Bool.and_eq_true _ _ |>.mp hc).1
        have hre : s.results = [] := by
          by_contra hne
          have h2 := (hres hne).1
          rw [hla] at h2
          exact absurd h2 (by simp)
        by_cases he : env.cfg.response_ends_trial = true <;>
          by_cases hk : s.response_key = none <;>
            simp_all [step, after_response, end_trial, TimerOrDone]
      · simpa [step, hc] using h
    | timerFire =>
      by_cases ht : s.timerActive = true
      · have hre : s.results = [] := by
          by_contra hne
          have h2 := (hres hne).2.1
          rw [ht] at h2
          exact absurd h2 (by simp)
        simp_all [step, end_trial, TimerOrDone]
      · simpa [step, ht] using h

/-- Once exactly one result exists, the run is frozen. -/
theorem run_of_length_one (env : TrialEnv) (s : TrialState) (es : List Event)
    (hinv : TrialInv s) (h : s.results.length = 1) : run env s es = s := by
  have hne : s.results ≠ [] := by
    intro hnil
    rw [hnil] at h
    exact absurd h (by simp)
  obtain ⟨hl, ht, _⟩ := hinv.2 hne
  exact run_frozen env s es hl ht

theorem run_length_of_timerFire (env : TrialEnv) (s : TrialState)
    (es : List Event) (hinv : TrialInv s) (h : TimerOrDone s)
    (hmem : Event.timerFire ∈ es) : (run env s es).results.length = 1 := by
  induction es generalizing s with
  | nil => exact absurd hmem (by simp)
  | cons e es ih =>
    rcases List.mem_cons.mp hmem with he | he
    · subst he
      have hinv' := step_inv env s Event.timerFire hinv
      have hlen : (step env s Event.timerFire).results.length = 1 := by
        obtain ⟨hwf, hres⟩ := hinv
        by_cases ht : s.timerActive = true
        · have hre : s.results = [] := by
            by_contra hne
            have h2 := (hres hne).2.1
            rw [ht] at h2
            exact absurd h2 (by simp)
          simp [step, ht, end_trial, hre]
        · rcases h with h | h
          · exact absurd h ht
          · simpa [step, ht] using h
      rw [run_cons, run_of_length_one env _ es hinv' hlen]
      exact hlen
    · exact ih _ (step_inv env s e hinv)
        (run_timerOrDone env s [e] hinv h) he

theorem choicesEnabled_of_validKey (c : Choices) (k : String)
    (h : validKey c k = true) : choicesEnabled c = true := by
  cases c with
  | noKeys => exact absurd h (by simp [validKey])
  | keys cs => rfl

theorem run_listenerOrDone (env : TrialEnv)
    (hre : env.cfg.response_ends_trial = true) (es : List Event) :
    ∀ s : TrialState, TrialInv s → ListenerOrDone s →
      ListenerOrDone (run env s es) := by
  induction es with
  | nil =>
    intro s _ h
    exact h
  | cons e es ih =>
    intro s hinv h
    refine ih _ (step_inv env s e hinv) ?_
    obtain ⟨hwf, hres⟩ := hinv
    cases e with
    | keyPress k rt =>
      by_cases hc : (s.listenerActive && validKey env.cfg.choices k) = true
      · have hla : s.listenerActive = true := (Bool.and_eq_true _ _ |>.mp hc).1
        have hre0 : s.results = [] := by
          by_contra hne
          have h2 := (hres hne).1
          rw [hla] at h2
          exact absurd h2 (by simp)
        by_cases hk : s.response_key = none <;>
          simp_all [step, after_response, end_trial, ListenerOrDone]
      · simpa [step, hc] using h
    | timerFire =>
      by_cases ht : s.timerActive = true
      · have hre0 : s.results = [] := by
          by_contra hne
          have h2 := (hres hne).2.1
          rw [ht] at h2
          exact absurd h2 (by simp)
        simp_all [step, end_trial, ListenerOrDone]
      · simpa [step, ht] using h

theorem run_length_of_validKey (env : TrialEnv)
    (hre : env.cfg.response_ends_trial = true) (k : String) (rt : Nat)
    (hv : validKey env.cfg.choices k = true) (es : List Event) :
    ∀ s : TrialState, TrialInv s → ListenerOrDone s →
      Event.keyPress k rt ∈ es → (run env s es).results.length = 1 := by
  induction es with
  | nil =>
    intro s _ _ hmem
    exact absurd hmem (by simp)
  | cons e es ih =>
    intro s hinv h hmem
    rcases List.mem_cons.mp hmem with he | he
    · subst he
      have hinv' := step_inv env s (Event.keyPress k rt) hinv
      have hlen : (step env s (Event.keyPress k rt)).results.length = 1 := by
        obtain ⟨hwf, hres⟩ := hinv
        by_cases hla : s.listenerActive = true
        · have hre0 : s.results = [] := by
            by_contra hne
            have h2 := (hres hne).1
            rw [hla] at h2
            exact absurd h2 (by simp)
          by_cases hk : s.response_key = none <;>
            simp_all [step, after_response, end_trial]
        · rcases h with h | h
          · exact absurd h hla
          · have hc : (s.listenerActive && validKey env.cfg.choices k) = false := by
              cases hx : s.listenerActive with
              | false => rfl
              | true => exact absurd hx hla
            simpa [step, hc] using h
      rw [run_cons, run_of_length_one env _ es hinv' hlen]
      exact hlen
    · exact ih _ (step_inv env s e hinv)
        (run_listenerOrDone env hre [e] s hinv h) he

/-- C1: exactly one result record reaches `finishTrial` per trial: at most
one result is ever reported no matter which and how many events fire; when a
trial duration is set and the timer fires, exactly one is reported; and when
`response_ends_trial` is set and an accepted key press occurs, exactly one
is reported — the first resolution kills both the listener and the timer,
so a second firing of either path is a no-op. -/
theorem finishTrial_called_exactly_once (cfg : TrialCfg) (o : Oracle)
    (es : List Event) :
    (runTrial cfg o es).results.length ≤ 1 ∧
    (cfg.trial_duration.isSome = true → Event.timerFire ∈ es →
      (runTrial cfg o es).results.length = 1) ∧
    (cfg.response_ends_trial = true →
      ∀ k rt, validKey cfg.choices k = true → Event.keyPress k rt ∈ es →
        (runTrial cfg o es).results.length = 1) := by
  refine ⟨?_, ?_, ?_⟩
  · have hinv := run_inv (setupTrial cfg o) (initState cfg) es (initState_inv cfg)
    by_cases hne : (runTrial cfg o es).results = []
    · rw [hne]
      simp
    · have hlen := (hinv.2 hne).2.2
      rw [runTrial]
      omega
  · intro hdur hmem
    refine run_length_of_timerFire (setupTrial cfg o) (initState cfg) es
      (initState_inv cfg) (Or.inl ?_) hmem
    simp [initState, hdur]
  · intro hre k rt hv hmem
    refine run_length_of_validKey (setupTrial cfg o) hre k rt hv es
      (initState cfg) (initState_inv cfg) (Or.inl ?_) hmem
    simp [initState, choicesEnabled_of_validKey cfg.choices k hv]

/-- Witness for C1 at a concrete race: a response at 420 ms followed by a
timer firing still yields exactly one reported result. -/
theorem finishTrial_called_exactly_once_witness :
    (runTrial stdCfg stdOracle
        [Event.keyPress "f" 420, Event.timerFire]).results.length ≤ 1 ∧
    stdCfg.trial_duration.isSome = true ∧
    Event.timerFire ∈ [Event.keyPress "f" 420, Event.timerFire] ∧
    (runTrial stdCfg stdOracle
        [Event.keyPress "f" 420, Event.timerFire]).results.length = 1 ∧
    stdCfg.response_ends_trial = true ∧
    validKey stdCfg.choices "f" = true :=
  ⟨(finishTrial_called_exactly_once stdCfg stdOracle _).1, by decide, by decide,
    (finishTrial_called_exactly_once stdCfg stdOracle _).2.2 (by decide) "f" 420
      (by decide) (by decide),
    by decide, by decide⟩

/-! ### Shape of reported records -/

theorem step_results_shape (env : TrialEnv) (s : TrialState) (e : Event) :
    ∀ d ∈ (step env s e).results,
      d ∈ s.results ∨ ∃ rt key, d = end_trial_data env rt key := by
  intro d hd
  cases e with
  | keyPress k rt =>
    by_cases hc : (s.listenerActive && validKey env.cfg.choices k) = true
    · by_cases he : env.cfg.response_ends_trial = true <;>
        by_cases hk : s.response_key = none <;>
          simp_all [step, after_response, end_trial] <;>
          rcases hd with hd | hd <;> simp_all
    · left
      simpa [step, hc] using hd
  | timerFire =>
    by_cases ht : s.timerActive = true
    · simp_all [step, end_trial]
      rcases hd with hd | hd <;> simp_all
    · left
      simpa [step, ht] using hd

theorem run_results_shape (env : TrialEnv) (s : TrialState) (es : List Event)
    (h : ∀ d ∈ s.results, ∃ rt key, d = end_trial_data env rt key) :
    ∀ d ∈ (run env s es).results, ∃ rt key, d = end_trial_data env rt key := by
  induction es generalizing s with
  | nil => exact h
  | cons e es ih =>
    refine ih _ ?_
    intro d hd
    rcases step_results_shape env s e d hd with h1 | h1
    · exact h d h1
    · exact h1

/-- Every record reaching `finishTrial` is an `end_trial_data` record of the
trial's environment. -/
theorem runTrial_results_shape (cfg : TrialCfg) (o : Oracle) (es : List Event) :
    ∀ d ∈ (runTrial cfg o es).results,
      ∃ rt key, d = end_trial_data (setupTrial cfg o) rt key := by
  refine run_results_shape (setupTrial cfg o) (initState cfg) es ?_
  intro d hd
  exact absurd hd (by simp [initState])

/-! ### Key-to-side mapping -/

theorem end_trial_data_side_mapping (env : TrialEnv) (rt : Option Nat)
    (key : Option String) (c0 c1 : String)
    (h : env.cfg.choices = Choices.keys [c0, c1]) :
    ((end_trial_data env rt key).chosen_side = some "left" ↔ key = some c0) ∧
    ((end_trial_data env rt key).chosen_side = some "right" ↔
      (key = some c1 ∧ c0 ≠ c1)) ∧
    ((key ≠ some c0 ∧ key ≠ some c1) →
      (end_trial_data env rt key).chosen_side = none) ∧
    (end_trial_data env rt key).key = key := by
  cases key with
  | none => simp [end_trial_data, sideOfKey]
  | some k =>
    by_cases h0 : c0 = k <;> by_cases h1 : c1 = k <;>
      simp_all [end_trial_data, sideOfKey, choiceAt, eq_comm]

/-- C2 counterexample: with duplicated tokens `choices = ["f", "f"]`, the
captured key `"f"` equals `choices[1]`, yet the emitted `chosen_side` is
`"left"`, not `"right"` — the claim's "right iff it equals choices[1]"
fails because `choices[0]` is tested first. -/
theorem chosen_side_right_iff_counterexample :
    choiceAt dupCfg.choices 1 = some "f" ∧
    ((runTrial dupCfg stdOracle [Event.keyPress "f" 420]).results.map
      (fun d => (d.key, d.chosen_side))) = [(some "f", some "left")] := by
  constructor <;> decide

/-- C2 (amended): for every trial with two choice tokens, the emitted
`chosen_side` is `"left"` iff the captured key equals `choices[0]`;
`"right"` iff it equals `choices[1]` and the two tokens differ
(`choices[0]` is tested first, so it wins on a duplicated token); and
absent whenever the key matches neither token, which also covers the
no-response case. -/
theorem chosen_side_mapping (cfg : TrialCfg) (o : Oracle) (es : List Event)
    (c0 c1 : String) (h : cfg.choices = Choices.keys [c0, c1]) :
    ∀ d ∈ (runTrial cfg o es).results,
      (d.chosen_side = some "left" ↔ d.key = some c0) ∧
      (d.chosen_side = some "right" ↔ (d.key = some c1 ∧ c0 ≠ c1)) ∧
      ((d.key ≠ some c0 ∧ d.key ≠ some c1) → d.chosen_side = none) := by
  intro d hd
  obtain ⟨rt, key, hdk⟩ := runTrial_results_shape cfg o es d hd
  have henv : (setupTrial cfg o).cfg.choices = Choices.keys [c0, c1] := h
  obtain ⟨h1, h2, h3, h4⟩ :=
    end_trial_data_side_mapping (setupTrial cfg o) rt key c0 c1 henv
  subst hdk
  rw [h4] at *
  exact ⟨h1, h2, h3⟩

/-- Witness for the amended C2 at a concrete trial: key `"j"` with
`choices = ["f", "j"]` is mapped to side `"right"`. -/
theorem chosen_side_mapping_witness :
    stdCfg.choices = Choices.keys ["f", "j"] ∧
    ((end_trial_data (setupTrial stdCfg stdOracle) (some 100)
        (some "j")).chosen_side = some "right" ↔
      ((end_trial_data (setupTrial stdCfg stdOracle) (some 100)
        (some "j")).key = some "j" ∧ "f" ≠ "j")) := by
  refine ⟨rfl, ?_⟩
  have hmem : end_trial_data (setupTrial stdCfg stdOracle) (some 100)
      (some "j") ∈ (runTrial stdCfg stdOracle [Event.keyPress "j" 100]).results := by
    have h : (runTrial stdCfg stdOracle [Event.keyPress "j" 100]).results =
        [end_trial_data (setupTrial stdCfg stdOracle) (some 100) (some "j")] := rfl
    rw [h]
    exact List.mem_singleton.mpr rfl
  exact (chosen_side_mapping stdCfg stdOracle [Event.keyPress "j" 100]
    "f" "j" rfl _ hmem).2.1

/-! ### Accuracy -/

theorem accuracyOf_spec (correct chosen : Option String) :
    ((accuracyOf correct chosen).isSome ↔ (correct.isSome ∧ chosen.isSome)) ∧
    (accuracyOf correct chosen = some 1 ↔
      ∃ c, correct = some c ∧ chosen = some c) ∧
    (∀ c s, correct = some c → chosen = some s →
      accuracyOf correct chosen = some (if s = c then 1 else 0)) ∧
    (accuracyOf correct chosen = none ∨ accuracyOf correct chosen = some 0 ∨
      accuracyOf correct chosen = some 1) := by
  cases correct with
  | none => cases chosen <;> simp [accuracyOf]
  | some c =>
    cases chosen with
    | none => simp [accuracyOf]
    | some s => by_cases hsc : s = c <;> simp_all [accuracyOf, eq_comm]

/-- C3: in every reported record, `accuracy` is present (0 or 1) iff both
`correct_side` and `chosen_side` are present; when both are present it is 1
iff they coincide and 0 otherwise; when either is absent it is `null`, and
it is never any value other than `null`, 0 or 1. -/
theorem accuracy_defined_iff_both_present (cfg : TrialCfg) (o : Oracle)
    (es : List Event) :
    ∀ d ∈ (runTrial cfg o es).results,
      (d.accuracy.isSome ↔ (d.correct_side.isSome ∧ d.chosen_side.isSome)) ∧
      (d.accuracy = some 1 ↔
        ∃ c, d.correct_side = some c ∧ d.chosen_side = some c) ∧
      (∀ c s, d.correct_side = some c → d.chosen_side = some s →
        d.accuracy = some (if s = c then 1 else 0)) ∧
      (d.accuracy = none ∨ d.accuracy = some 0 ∨ d.accuracy = some 1) := by
  intro d hd
  obtain ⟨rt, key, hdk⟩ := runTrial_results_shape cfg o es d hd
  subst hdk
  have h := accuracyOf_spec (setupTrial cfg o).cfg.correct_side
    (sideOfKey (setupTrial cfg o).cfg.choices key)
  simpa [end_trial_data] using h

/-- Witness for C3 at a concrete trial: correct side `"left"`, captured key
`"f"` mapping to `"left"`, so accuracy is present. -/
theorem accuracy_defined_iff_both_present_witness :
    ((end_trial_data (setupTrial stdCfg stdOracle) (some 420)
        (some "f")).accuracy.isSome ↔
      ((end_trial_data (setupTrial stdCfg stdOracle) (some 420)
          (some "f")).correct_side.isSome ∧
        (end_trial_data (setupTrial stdCfg stdOracle) (some 420)
          (some "f")).chosen_side.isSome)) := by
  have hmem : end_trial_data (setupTrial stdCfg stdOracle) (some 420)
      (some "f") ∈
      (runTrial stdCfg stdOracle [Event.keyPress "f" 420]).results := by
    have h : (runTrial stdCfg stdOracle [Event.keyPress "f" 420]).results =
        [end_trial_data (setupTrial stdCfg stdOracle) (some 420) (some "f")] :=
      rfl
    rw [h]
    exact List.mem_singleton.mpr rfl
  exact (accuracy_defined_iff_both_present stdCfg stdOracle
    [Event.keyPress "f" 420] _ hmem).1

/-! ### Jitter bounds -/

theorem sampleJitter_bounds (r : ℚ) (J : ℤ) (h0 : 0 ≤ r) (h1 : r < 1)
    (hJ : 0 ≤ J) : -J ≤ sampleJitter r J ∧ sampleJitter r J ≤ J := by
  have hJQ : (0 : ℚ) ≤ (J : ℚ) := by exact_mod_cast hJ
  have hlo : (-(J : ℚ)) ≤ (r * 2 - 1) * (J : ℚ) := by nlinarith
  have hhi : (r * 2 - 1) * (J : ℚ) ≤ (J : ℚ) := by nlinarith
  unfold sampleJitter jsRound
  constructor
  · refine Int.le_floor.mpr ?_
    push_cast
    linarith
  · have hlt : (r * 2 - 1) * (J : ℚ) + 1/2 < ((J + 1 : ℤ) : ℚ) := by
      push_cast
      linarith
    exact Int.lt_add_one_iff.mp (Int.floor_lt.mpr hlt)

/-- C6: when `randomInt` honors its inclusive-range contract
(`lo ≤ height ≤ hi`, which requires `lo ≤ hi`, including `lo = hi`) and the
jitter bound is non-negative (including 0), the final magnitudes lie in
`[lo - J, hi + J]` on each side, and each equals the sampled height plus
the rounded sampled jitter; every reported record echoes exactly these
once-computed magnitudes. -/
theorem final_height_within_jittered_range (cfg : TrialCfg) (o : Oracle)
    (hl1 : cfg.left_height_range.1 ≤ o.left_height)
    (hl2 : o.left_height ≤ cfg.left_height_range.2)
    (hr1 : cfg.right_height_range.1 ≤ o.right_height)
    (hr2 : o.right_height ≤ cfg.right_height_range.2)
    (hJ : 0 ≤ cfg.jitter)
    (hlr0 : 0 ≤ o.left_r) (hlr1 : o.left_r < 1)
    (hrr0 : 0 ≤ o.right_r) (hrr1 : o.right_r < 1) :
    (cfg.left_height_range.1 - cfg.jitter ≤ (setupTrial cfg o).final_left ∧
      (setupTrial cfg o).final_left ≤ cfg.left_height_range.2 + cfg.jitter) ∧
    (cfg.right_height_range.1 - cfg.jitter ≤ (setupTrial cfg o).final_right ∧
      (setupTrial cfg o).final_right ≤
        cfg.right_height_range.2 + cfg.jitter) ∧
    (setupTrial cfg o).final_left =
      o.left_height + (setupTrial cfg o).left_jitter ∧
    (setupTrial cfg o).final_right =
      o.right_height + (setupTrial cfg o).right_jitter ∧
    (∀ es : List Event, ∀ d ∈ (runTrial cfg o es).results,
      d.final_left = (setupTrial cfg o).final_left ∧
      d.final_right = (setupTrial cfg o).final_right) := by
  obtain ⟨hL1, hL2⟩ := sampleJitter_bounds o.left_r cfg.jitter hlr0 hlr1 hJ
  obtain ⟨hR1, hR2⟩ := sampleJitter_bounds o.right_r cfg.jitter hrr0 hrr1 hJ
  refine ⟨⟨?_, ?_⟩, ⟨?_, ?_⟩, rfl, rfl, ?_⟩
  · simp only [setupTrial]
    omega
  · simp only [setupTrial]
    omega
  · simp only [setupTrial]
    omega
  · simp only [setupTrial]
    omega
  · intro es d hd
    obtain ⟨rt, key, hdk⟩ := runTrial_results_shape cfg o es d hd
    subst hdk
    exact ⟨rfl, rfl⟩

/-- Witness for C6 at a concrete configuration: the degenerate range
`[100, 100]` with jitter bound 0 and random draw 0. -/
theorem final_height_within_jittered_range_witness :
    stdCfg.left_height_range.1 ≤ stdOracle.left_height ∧
    stdOracle.left_height ≤ stdCfg.left_height_range.2 ∧
    (0 : ℚ) ≤ stdOracle.left_r ∧ stdOracle.left_r < 1 ∧
    (stdCfg.left_height_range.1 - stdCfg.jitter ≤
        (setupTrial stdCfg stdOracle).final_left ∧
      (setupTrial stdCfg stdOracle).final_left ≤
        stdCfg.left_height_range.2 + stdCfg.jitter) :=
  ⟨by norm_num [stdCfg, stdOracle], by norm_num [stdCfg, stdOracle],
    by norm_num [stdOracle], by norm_num [stdOracle],
    (final_height_within_jittered_range stdCfg stdOracle
      (by norm_num [stdCfg, stdOracle]) (by norm_num [stdCfg, stdOracle])
      (by norm_num [stdCfg, stdOracle]) (by norm_num [stdCfg, stdOracle])
      (by norm_num [stdCfg]) (by norm_num [stdOracle])
      (by norm_num [stdOracle]) (by norm_num [stdOracle])
      (by norm_num [stdOracle])).1⟩

/-! ### Absence of configuration validation -/

/-- C4 (code evaluated at the failing input): `trial()` contains no
validation whatsoever.  With an inverted left range `(150, 50)`, a negative
jitter bound `-5`, and a single-token `choices` array `["f"]`, the trial
starts normally — the keyboard listener and the timeout are registered,
the sampled configuration flows straight into the stimulus, and the trial
resolves and reports a result instead of being rejected with a descriptive
failure. -/
theorem invalid_config_not_rejected :
    (initState invalidCfg).listenerRegistered = true ∧
    (initState invalidCfg).timerActive = true ∧
    (runTrial invalidCfg stdOracle [Event.timerFire]).results.length = 1 ∧
    ((runTrial invalidCfg stdOracle [Event.keyPress "f" 300]).results.map
      (fun d => (d.key, d.chosen_side))) = [(some "f", some "left")] := by
  refine ⟨rfl, rfl, ?_, ?_⟩ <;> decide

/-- C7 (code evaluated at the failing input): with the disable-sentinel
choices and no trial duration, `trial()` emits no warning and registers
neither a listener nor a timer; no sequence of external events can ever
produce a result — the trial hangs silently. -/
theorem no_keys_no_duration_silent_hang (o : Oracle) (es : List Event) :
    (initState hangCfg).listenerRegistered = false ∧
    (initState hangCfg).timerActive = false ∧
    (runTrial hangCfg o es).results = [] := by
  refine ⟨rfl, rfl, ?_⟩
  have h := run_frozen (setupTrial hangCfg o) (initState hangCfg) es rfl rfl
  rw [runTrial, h]
  rfl

/-! ### Timeout with no captured response -/

theorem accuracyOf_none_right (correct : Option String) :
    accuracyOf correct none = none := by
  cases correct <;> rfl

theorem run_no_response_timeout (env : TrialEnv) (es : List Event) :
    ∀ s : TrialState,
      (∀ k rt, Event.keyPress k rt ∈ es → validKey env.cfg.choices k = false) →
      s.response_rt = none → s.response_key = none → s.results = [] →
      s.timerActive = true → WFState s →
      (run env s es).results =
        if Event.timerFire ∈ es then [end_trial_data env none none]
        else [] := by
  induction es with
  | nil =>
    intro s _ _ _ hres _ _
    simpa using hres
  | cons e es ih =>
    intro s hnv hrt hk hres ht hwf
    cases e with
    | keyPress k rt =>
      have hv : validKey env.cfg.choices k = false := hnv k rt (by simp)
      have hstep : step env s (Event.keyPress k rt) = s := by
        simp [step, hv]
      rw [run_cons, hstep]
      have h := ih s (fun k rt hm => hnv k rt (by simp [hm])) hrt hk hres ht hwf
      simpa using h
    | timerFire =>
      rw [run_cons]
      have hstep : step env s Event.timerFire =
          end_trial env { s with timerActive := false } := by
        simp [step, ht]
      rw [hstep]
      have hwf1 : WFState { s with timerActive := false } := hwf
      have hl1 : (end_trial env { s with timerActive := false }).listenerActive
          = false := end_trial_listenerActive env _ hwf1
      have ht1 : (end_trial env { s with timerActive := false }).timerActive
          = false := rfl
      rw [run_frozen env _ es hl1 ht1]
      simp [end_trial, hres, hrt, hk]

/-- C8: whenever the timer fires with no response ever captured (every key
press in the event sequence is rejected by the listener's valid-response
filter), the single reported record has `rt`, `key`, `chosen_side` and
`accuracy` all `null` — explicit absent values. -/
theorem timeout_without_response_emits_nulls (cfg : TrialCfg) (o : Oracle)
    (es : List Event)
    (hnv : ∀ k rt, Event.keyPress k rt ∈ es → validKey cfg.choices k = false)
    (hdur : cfg.trial_duration.isSome = true)
    (hmem : Event.timerFire ∈ es) :
    (runTrial cfg o es).results =
      [end_trial_data (setupTrial cfg o) none none] ∧
    (end_trial_data (setupTrial cfg o) none none).rt = none ∧
    (end_trial_data (setupTrial cfg o) none none).key = none ∧
    (end_trial_data (setupTrial cfg o) none none).chosen_side = none ∧
    (end_trial_data (setupTrial cfg o) none none).accuracy = none := by
  refine ⟨?_, rfl, rfl, rfl, ?_⟩
  · have h := run_no_response_timeout (setupTrial cfg o) es (initState cfg)
      hnv rfl rfl rfl (by simp [initState, hdur]) (fun h => h)
    rw [runTrial, h, if_pos hmem]
  · simp [end_trial_data, sideOfKey, accuracyOf_none_right]

/-- Witness for C8: an invalid key press followed by the timer firing. -/
theorem timeout_without_response_emits_nulls_witness :
    stdCfg.trial_duration.isSome = true ∧
    Event.timerFire ∈ [Event.keyPress "x" 100, Event.timerFire] ∧
    (runTrial stdCfg stdOracle
        [Event.keyPress "x" 100, Event.timerFire]).results =
      [end_trial_data (setupTrial stdCfg stdOracle) none none] ∧
    (end_trial_data (setupTrial stdCfg stdOracle) none none).chosen_side =
      none ∧
    (end_trial_data (setupTrial stdCfg stdOracle) none none).accuracy =
      none := by
  have hnv : ∀ k rt,
      Event.keyPress k rt ∈ [Event.keyPress "x" 100, Event.timerFire] →
        validKey stdCfg.choices k = false := by
    intro k rt hm
    simp only [List.mem_cons, List.not_mem_nil, or_false] at hm
    rcases hm with hm | hm
    · injection hm with h1 h2
      subst h1
      decide
    · exact Event.noConfusion hm
  obtain ⟨h1, _, _, h4, h5⟩ := timeout_without_response_emits_nulls stdCfg
    stdOracle [Event.keyPress "x" 100, Event.timerFire] hnv (by decide)
    (by decide)
  exact ⟨by decide, by decide, h1, h4, h5⟩

/-- C10: with the disable-sentinel choices and a trial duration, no
keyboard listener is ever registered (so `end_trial`'s
`typeof keyboardListener !== "undefined"` guard skips cancellation), yet
the timeout path still completes finalization, reporting exactly one record
with null response fields. -/
theorem no_keys_timeout_finalizes (cfg : TrialCfg) (o : Oracle)
    (es : List Event) (hch : cfg.choices = Choices.noKeys)
    (hdur : cfg.trial_duration.isSome = true)
    (hmem : Event.timerFire ∈ es) :
    (initState cfg).listenerRegistered = false ∧
    (runTrial cfg o es).results =
      [end_trial_data (setupTrial cfg o) none none] ∧
    (end_trial_data (setupTrial cfg o) none none).rt = none ∧
    (end_trial_data (setupTrial cfg o) none none).key = none ∧
    (end_trial_data (setupTrial cfg o) none none).chosen_side = none ∧
    (end_trial_data (setupTrial cfg o) none none).accuracy = none := by
  have hnv : ∀ k rt, Event.keyPress k rt ∈ es →
      validKey cfg.choices k = false := by
    intro k rt _
    rw [hch]
    rfl
  refine ⟨?_, ?_, rfl, rfl, rfl, ?_⟩
  · simp [initState, hch, choicesEnabled]
  · have h := run_no_response_timeout (setupTrial cfg o) es (initState cfg)
      hnv rfl rfl rfl (by simp [initState, hdur]) (fun h => h)
    rw [runTrial, h, if_pos hmem]
  · simp [end_trial_data, sideOfKey, accuracyOf_none_right]

/-- Witness for C10: sentinel choices, duration 2000, timer fires. -/
theorem no_keys_timeout_finalizes_witness :
    noKeysCfg.choices = Choices.noKeys ∧
    noKeysCfg.trial_duration.isSome = true ∧
    Event.timerFire ∈ [Event.timerFire] ∧
    (initState noKeysCfg).listenerRegistered = false ∧
    (runTrial noKeysCfg stdOracle [Event.timerFire]).results =
      [end_trial_data (setupTrial noKeysCfg stdOracle) none none] :=
  ⟨by decide, by decide, by decide,
    (no_keys_timeout_finalizes noKeysCfg stdOracle [Event.timerFire]
      (by decide) (by decide) (by decide)).1,
    (no_keys_timeout_finalizes noKeysCfg stdOracle [Event.timerFire]
      (by decide) (by decide) (by decide)).2.1⟩

/-! ### Responses that do not end the trial -/

theorem run_no_listener_no_timerFire (env : TrialEnv) (es : List Event) :
    ∀ s : TrialState, s.listenerActive = false → Event.timerFire ∉ es →
      run env s es = s := by
  induction es with
  | nil =>
    intro s _ _
    rfl
  | cons e es ih =>
    intro s hl ht
    cases e with
    | keyPress k rt =>
      have hstep : step env s (Event.keyPress k rt) = s := by
        simp [step, hl]
      rw [run_cons, hstep]
      exact ih s hl (fun h => ht (by simp [h]))
    | timerFire => exact absurd (by simp) ht

theorem run_hold_response (env : TrialEnv)
    (hends : env.cfg.response_ends_trial = false) :
    ∀ es : List Event, ∀ s : TrialState, Event.timerFire ∉ es →
      s.response_rt = none → s.response_key = none → s.listenerActive = true →
      (run env s es).response_rt = (firstResponse env.cfg.choices es).1 ∧
      (run env s es).response_key = (firstResponse env.cfg.choices es).2 ∧
      (run env s es).timerActive = s.timerActive ∧
      (run env s es).results = s.results := by
  intro es
  induction es with
  | nil =>
    intro s _ hrt hk _
    exact ⟨by simpa [firstResponse] using hrt,
      by simpa [firstResponse] using hk, rfl, rfl⟩
  | cons e es ih =>
    intro s ht hrt hk hl
    cases e with
    | keyPress k rt =>
      by_cases hv : validKey env.cfg.choices k = true
      · have hstep : step env s (Event.keyPress k rt) =
            { s with
                listenerActive := false
                response_rt := some rt
                response_key := some k } := by
          simp [step, hl, hv, after_response, hk, hends]
        rw [run_cons, hstep,
          run_no_listener_no_timerFire env es _ rfl
            (fun h => ht (by simp [h]))]
        simp [firstResponse, hv]
      · have hv' : validKey env.cfg.choices k = false := by simpa using hv
        have hstep : step env s (Event.keyPress k rt) = s := by
          simp [step, hv']
        rw [run_cons, hstep]
        have h := ih s (fun h => ht (by simp [h])) hrt hk hl
        simpa [firstResponse, hv'] using h
    | timerFire => exact absurd (by simp) ht

/-- C5: with `response_ends_trial` false and a trial duration set, no
result is reported while the timer has not fired, and when the timer then
fires, the reported record carries the first accepted response of the
pre-timeout events — not any later one. -/
theorem response_does_not_end_trial_until_timer (cfg : TrialCfg) (o : Oracle)
    (es : List Event) (hends : cfg.response_ends_trial = false)
    (hdur : cfg.trial_duration.isSome = true)
    (ht : Event.timerFire ∉ es)
    (hch : choicesEnabled cfg.choices = true) :
    (runTrial cfg o es).results = [] ∧
    (runTrial cfg o (es ++ [Event.timerFire])).results =
      [end_trial_data (setupTrial cfg o) (firstResponse cfg.choices es).1
        (firstResponse cfg.choices es).2] := by
  have hends : (setupTrial cfg o).cfg.response_ends_trial = false := hends
  obtain ⟨h1, h2, h3, h4⟩ := run_hold_response (setupTrial cfg o) hends es
    (initState cfg) ht rfl rfl (by simp [initState, hch])
  have hres : (runTrial cfg o es).results = [] := by
    rw [runTrial, h4]
    rfl
  refine ⟨hres, ?_⟩
  rw [runTrial, run_append]
  have ht1 : (run (setupTrial cfg o) (initState cfg) es).timerActive = true := by
    rw [h3]
    simp [initState, hdur]
  have hstep : run (setupTrial cfg o)
      (run (setupTrial cfg o) (initState cfg) es) [Event.timerFire] =
      end_trial (setupTrial cfg o)
        { run (setupTrial cfg o) (initState cfg) es with
          timerActive := false } := by
    rw [run_cons]
    simp [step, ht1, run]
  rw [hstep, end_trial_results]
  have h4' : (run (setupTrial cfg o) (initState cfg) es).results = [] := by
    rw [h4]
    rfl
  simp [h4', h1, h2]
  rfl

/-- Witness for C5: two responses before the timeout; only the first
(`"f"` at 420 ms) appears in the single record reported after the timer
fires. -/
theorem response_does_not_end_trial_until_timer_witness :
    holdCfg.response_ends_trial = false ∧
    holdCfg.trial_duration.isSome = true ∧
    Event.timerFire ∉ [Event.keyPress "f" 420, Event.keyPress "j" 800] ∧
    choicesEnabled holdCfg.choices = true ∧
    firstResponse holdCfg.choices
      [Event.keyPress "f" 420, Event.keyPress "j" 800] =
      (some 420, some "f") ∧
    (runTrial holdCfg stdOracle
      [Event.keyPress "f" 420, Event.keyPress "j" 800]).results = [] ∧
    (runTrial holdCfg stdOracle
      ([Event.keyPress "f" 420, Event.keyPress "j" 800] ++
        [Event.timerFire])).results =
      [end_trial_data (setupTrial holdCfg stdOracle)
        (firstResponse holdCfg.choices
          [Event.keyPress "f" 420, Event.keyPress "j" 800]).1
        (firstResponse holdCfg.choices
          [Event.keyPress "f" 420, Event.keyPress "j" 800]).2] := by
  obtain ⟨h1, h2⟩ := response_does_not_end_trial_until_timer holdCfg stdOracle
    [Event.keyPress "f" 420, Event.keyPress "j" 800] (by decide) (by decide)
    (by decide) (by decide)
  exact ⟨by decide, by decide, by decide, by decide, by decide, h1, h2⟩

/-! ### Equivalence of the two variants -/

theorem img_after_response_of_ends (env : ImgTrialEnv) (k : String) (rt : Nat)
    (t : ImgTrialState) (h : env.cfg.response_ends_trial = true) :
    img_after_response env k rt t =
      img_end_trial env
        (if t.response_key = none then
          { t with response_rt := some rt, response_key := some k }
        else t) := by
  unfold img_after_response
  by_cases hk : t.response_key = none <;> simp [hk, h]

theorem img_after_response_of_not_ends (env : ImgTrialEnv) (k : String)
    (rt : Nat) (t : ImgTrialState) (h : env.cfg.response_ends_trial = false) :
    img_after_response env k rt t =
      (if t.response_key = none then
        { t with response_rt := some rt, response_key := some k }
      else t) := by
  unfold img_after_response
  by_cases hk : t.response_key = none <;> simp [hk, h]

theorem engine_eq_of_envAgrees (env : TrialEnv) (ienv : ImgTrialEnv)
    (he : EnvAgrees env ienv) (rt : Option Nat) (key : Option String) :
    TrialData.engine (end_trial_data env rt key) =
      ImgTrialData.engine (img_end_trial_data ienv rt key) := by
  obtain ⟨h1, h2, h3, h4, h5, h6, h7, h8⟩ := he
  simp [end_trial_data, img_end_trial_data, TrialData.engine,
    ImgTrialData.engine, h1, h2, h3, h5, h6, h7, h8]

theorem end_trialAgrees (env : TrialEnv) (ienv : ImgTrialEnv)
    (he : EnvAgrees env ienv) (s : TrialState) (t : ImgTrialState)
    (h : StateAgrees s t) :
    StateAgrees (end_trial env s) (img_end_trial ienv t) := by
  obtain ⟨h1, h2, h3, h4, h5, h6⟩ := h
  refine ⟨h1, h2, h3, ?_, rfl, ?_⟩
  · simp [end_trial, img_end_trial, h3, h4]
  · have hd := engine_eq_of_envAgrees env ienv he s.response_rt s.response_key
    rw [h1, h2] at hd
    simp [end_trial, img_end_trial, h6, h1, h2, hd]

theorem after_responseAgrees (env : TrialEnv) (ienv : ImgTrialEnv)
    (he : EnvAgrees env ienv) (k : String) (rt : Nat) (s : TrialState)
    (t : ImgTrialState) (h : StateAgrees s t) :
    StateAgrees (after_response env k rt s) (img_after_response ienv k rt t) := by
  have hs' : StateAgrees
      (if s.response_key = none then
        { s with response_rt := some rt, response_key := some k }
      else s)
      (if t.response_key = none then
        { t with response_rt := some rt, response_key := some k }
      else t) := by
    obtain ⟨g1, g2, g3, g4, g5, g6⟩ := h
    rw [← g2]
    by_cases hk : s.response_key = none
    · rw [if_pos hk, if_pos hk]
      exact ⟨rfl, rfl, g3, g4, g5, g6⟩
    · rw [if_neg hk, if_neg hk]
      exact ⟨g1, g2, g3, g4, g5, g6⟩
  have hre := he.2.2.2.1
  by_cases hrs : env.cfg.response_ends_trial = true
  · rw [after_response_of_ends env k rt s hrs,
      img_after_response_of_ends ienv k rt t (by rw [← hre]; exact hrs)]
    exact end_trialAgrees env ienv he _ _ hs'
  · have hrs' : env.cfg.response_ends_trial = false := by simpa using hrs
    rw [after_response_of_not_ends env k rt s hrs',
      img_after_response_of_not_ends ienv k rt t (by rw [← hre]; exact hrs')]
    exact hs'

theorem stepAgrees (env : TrialEnv) (ienv : ImgTrialEnv)
    (he : EnvAgrees env ienv) (s : TrialState) (t : ImgTrialState)
    (h : StateAgrees s t) (e : Event) :
    StateAgrees (step env s e) (imgStep ienv t e) := by
  obtain ⟨h1, h2, h3, h4, h5, h6⟩ := h
  cases e with
  | keyPress k rt =>
    have hcond : (t.listenerActive && validKey ienv.cfg.choices k) =
        (s.listenerActive && validKey env.cfg.choices k) := by
      rw [h4, he.2.1]
    simp only [step]
    simp only [imgStep]
    rw [hcond]
    by_cases hc : (s.listenerActive && validKey env.cfg.choices k) = true
    · rw [if_pos hc, if_pos hc]
      exact after_responseAgrees env ienv he k rt _ _ ⟨h1, h2, h3, rfl, h5, h6⟩
    · rw [if_neg hc, if_neg hc]
      exact ⟨h1, h2, h3, h4, h5, h6⟩
  | timerFire =>
    simp only [step]
    simp only [imgStep]
    rw [← h5]
    by_cases hc : s.timerActive = true
    · rw [if_pos hc, if_pos hc]
      exact end_trialAgrees env ienv he _ _ ⟨h1, h2, h3, h4, rfl, h6⟩
    · rw [if_neg hc, if_neg hc]
      exact ⟨h1, h2, h3, h4, h5, h6⟩

theorem runAgrees (env : TrialEnv) (ienv : ImgTrialEnv)
    (he : EnvAgrees env ienv) :
    ∀ es : List Event, ∀ s t, StateAgrees s t →
      StateAgrees (run env s es) (imgRun ienv t es) := by
  intro es
  induction es with
  | nil =>
    intro s t h
    exact h
  | cons e es ih =>
    intro s t h
    exact ih _ _ (stepAgrees env ienv he s t h e)

theorem setupAgrees (cfg : TrialCfg) (icfg : ImgTrialCfg) (o : Oracle)
    (h : CfgAgrees cfg icfg) :
    EnvAgrees (setupTrial cfg o) (imgSetupTrial icfg o) := by
  obtain ⟨hp, _, _, hj, hch, hcs, _, hre⟩ := h
  exact ⟨hp, hch, hcs, hre,
    by simp [setupTrial, imgSetupTrial, hj],
    by simp [setupTrial, imgSetupTrial, hj],
    by simp [setupTrial, imgSetupTrial, hj],
    by simp [setupTrial, imgSetupTrial, hj]⟩

theorem initAgrees (cfg : TrialCfg) (icfg : ImgTrialCfg)
    (h : CfgAgrees cfg icfg) :
    StateAgrees (initState cfg) (imgInitState icfg) := by
  obtain ⟨_, _, _, _, hch, _, hdur, _⟩ := h
  exact ⟨rfl, rfl, by simp [initState, imgInitState, hch],
    by simp [initState, imgInitState, hch],
    by simp [initState, imgInitState, hdur], rfl⟩

/-- C9: the plain-bar and image-overlay variants run the same trial engine:
for configurations agreeing on all engine fields, the same random draws and
the same event sequence, the reported records coincide on `rt`, `key`,
`prompt`, `chosen_side`, `correct_side`, `accuracy`, `final_left`,
`final_right`, `left_jitter` and `right_jitter`, differing only in the
echoed rendering parameters. -/
theorem variants_emit_identical_engine_fields (cfg : TrialCfg)
    (icfg : ImgTrialCfg) (o : Oracle) (es : List Event)
    (h : CfgAgrees cfg icfg) :
    (runTrial cfg o es).results.map TrialData.engine =
      (imgRunTrial icfg o es).results.map ImgTrialData.engine :=
  (runAgrees (setupTrial cfg o) (imgSetupTrial icfg o)
    (setupAgrees cfg icfg o h) es (initState cfg) (imgInitState icfg)
    (initAgrees cfg icfg h)).2.2.2.2.2

/-- Witness for C9: `stdCfg` and `stdImgCfg` agree on engine fields; a
concrete run produces engine-identical records. -/
theorem variants_emit_identical_engine_fields_witness :
    CfgAgrees stdCfg stdImgCfg ∧
    (runTrial stdCfg stdOracle [Event.keyPress "f" 420]).results.map
        TrialData.engine =
      (imgRunTrial stdImgCfg stdOracle [Event.keyPress "f" 420]).results.map
        ImgTrialData.engine :=
  ⟨⟨rfl, rfl, rfl, rfl, rfl, rfl, rfl, rfl⟩,
    variants_emit_identical_engine_fields stdCfg stdImgCfg stdOracle
      [Event.keyPress "f" 420] ⟨rfl, rfl, rfl, rfl, rfl, rfl, rfl, rfl⟩⟩
